import Mathlib

/-!
Shallow embedding of `src/server/mockserver.ts`: an in-memory chat
coordinator with four stores (`users`, `rooms`, `roomMembers`,
`messagesByRoom`) and the socket operations `sdk:user:create`,
`sdk:room:create`, `sdk:room:join`, `sdk:message:send`, `sdk:room:list`.

Modelling conventions:
- JS strings used as text are `List Char`; ids and keys are `String`.
- JS `Map` is an association list (`alGet`/`alSet` mirror `Map.get`/`Map.set`:
  `set` replaces the first binding in place, else appends — insertion order).
- JS `Set<string>` is a duplicate-free insertion-ordered `List String`
  (`setAdd` mirrors `Set.add`).
- JS `Date` values are modelled at calendar granularity by `CalDate`
  (year, 0-based month as in `getMonth()`, 1-based day as in `getDate()`).
  A date *string* fed to `new Date(...)` is a `DateInput`: `empty` for a
  falsy string, `invalid` for an unparseable one, `parsed d` otherwise.
- `nanoid` id generation and the clock are oracles passed as parameters.
- Socket broadcasts are outside the model; acknowledgement results are
  returned as `Res` values paired with the post-state.
-/

set_option autoImplicit false

namespace MockServer

/-- The character class of the JS regex `\s` (whitespace), as used by
`String.prototype.trim` and the validation regexes in the source. -/
def isJsSpace (c : Char) : Bool :=
  c = ' ' || c = '\t' || c = '\n' || c = '\r' || c = '\x0b' || c = '\x0c' ||
  c = '\u00A0' || c = '\u1680' || (0x2000 ≤ c.toNat && c.toNat ≤ 0x200A) ||
  c = '\u2028' || c = '\u2029' || c = '\u202F' || c = '\u205F' ||
  c = '\u3000' || c = '\uFEFF'

/-- The character class `[A-Za-z\s]` of the name regex in `sdk:user:create`. -/
def isNameChar (c : Char) : Bool :=
  (('A' ≤ c && c ≤ 'Z') || ('a' ≤ c && c ≤ 'z')) || isJsSpace c

/-- The character class `[^\s@]` of the email regex in `sdk:user:create`. -/
def isEmailChar (c : Char) : Bool :=
  !(isJsSpace c) && c ≠ '@'

/-- JS `String.prototype.trim`: strip `\s` characters from both ends. -/
def jsTrim (l : List Char) : List Char :=
  ((l.dropWhile isJsSpace).reverse.dropWhile isJsSpace).reverse

/-- The email regex `^[^\s@]+@[^\s@]+\.[^\s@]+$` of `sdk:user:create`:
a nonempty `@`-free, space-free local part, one `@`, and a domain whose
characters avoid `\s` and `@` and which has a dot that is neither its
first nor its last character. -/
def validEmail (l : List Char) : Bool :=
  let localPart := l.takeWhile (· ≠ '@')
  match l.dropWhile (· ≠ '@') with
  | '@' :: domain =>
      !localPart.isEmpty && localPart.all isEmailChar &&
      !domain.isEmpty && domain.all isEmailChar &&
      ((domain.drop 1).dropLast).contains '.'
  | _ => false

/-- JS `Set.prototype.add` on an insertion-ordered duplicate-free list. -/
def setAdd (s : List String) (x : String) : List String :=
  if x ∈ s then s else s ++ [x]

/-- JS `Array.prototype.slice(-n)`: the last `min n length` elements. -/
def sliceLast {α : Type _} (n : Nat) (l : List α) : List α :=
  l.drop (l.length - n)

/-- JS `Map.prototype.get` on an association list. -/
def alGet {α : Type _} : List (String × α) → String → Option α
  | [], _ => none
  | (k, v) :: rest, k2 => if k = k2 then some v else alGet rest k2

/-- JS `Map.prototype.set` on an association list: replace the first
binding of the key in place, else append a new binding. -/
def alSet {α : Type _} : List (String × α) → String → α → List (String × α)
  | [], k2, v2 => [(k2, v2)]
  | (k, v) :: rest, k2, v2 =>
      if k = k2 then (k2, v2) :: rest else (k, v) :: alSet rest k2 v2

/-- A calendar date in JS `Date` accessor conventions: `month` is 0-based
(`getMonth()`), `day` is 1-based (`getDate()`). -/
structure CalDate where
  year : Int
  month : Int
  day : Int
deriving DecidableEq

/-- The result of feeding a date string to `new Date(...)`: the string was
falsy (`empty`), parsed to an invalid date / NaN time (`invalid`), or
parsed to a calendar date. -/
inductive DateInput where
  | empty
  | invalid
  | parsed (d : CalDate)
deriving DecidableEq

/-- `isAtLeast18` from the source: calendar year/month/day difference
between `now` and the birth date. An unparseable date gives `false`. -/
def isAtLeast18 (now : CalDate) : DateInput → Bool
  | .empty => false
  | .invalid => false
  | .parsed d =>
    let years := now.year - d.year
    let m := now.month - d.month
    if years > 18 then true
    else if years < 18 then false
    else if m > 0 then true
    else if m < 0 then false
    else decide (now.day ≥ d.day)

/-- Day-granularity comparison of two calendar dates (both at midnight):
`d.getTime() >= today.getTime()` after `setHours(0,0,0,0)`. -/
def dateOnOrAfter (d today : CalDate) : Bool :=
  decide (d.year > today.year ∨
    (d.year = today.year ∧ (d.month > today.month ∨
      (d.month = today.month ∧ d.day ≥ today.day))))

/-- `isStartDateNotPast` from the source: the string must parse and its
calendar day must be on or after today. -/
def isStartDateNotPast (today : CalDate) : DateInput → Bool
  | .parsed d => dateOnOrAfter d today
  | _ => false

inductive Gender where
  | Male
  | Female
  | Other
deriving DecidableEq

/-- The `User` record stored in the `users` map. `dob` keeps the parsed
birth date (the source stores its ISO rendering). -/
structure User where
  id : String
  name : List Char
  email : List Char
  dob : DateInput
  gender : Gender
  createdAt : Nat
deriving DecidableEq

/-- The `Room` record stored in the `rooms` map. `startDate` keeps the
parsed calendar day (the source stores its `YYYY-MM-DD` rendering). -/
structure Room where
  id : String
  name : List Char
  startDate : CalDate
  maxUsers : Int
  createdAt : Nat
  createdByUserId : String
deriving DecidableEq

structure Message where
  id : String
  roomId : String
  senderUserId : String
  senderName : List Char
  text : List Char
  createdAt : Nat
deriving DecidableEq

structure CreateUserPayload where
  apiKey : String
  name : List Char
  email : List Char
  dob : DateInput
  gender : Option Gender
  agreedToTerms : Bool
deriving DecidableEq

structure CreateRoomPayload where
  apiKey : String
  userId : String
  roomName : List Char
  startDate : DateInput
  maxUsers : Option Int
deriving DecidableEq

structure JoinRoomPayload where
  apiKey : String
  userId : String
  roomId : String
deriving DecidableEq

structure SendMessagePayload where
  apiKey : String
  userId : String
  roomId : String
  text : List Char
deriving DecidableEq

structure RoomListPayload where
  apiKey : String
deriving DecidableEq

/-- The error codes of the source (exhaustive per the handlers). -/
inductive ErrCode where
  | UNAUTHORIZED
  | BAD_REQUEST
  | TERMS_REQUIRED
  | INVALID_NAME
  | INVALID_EMAIL
  | INVALID_DOB
  | USER_NOT_FOUND
  | INVALID_ROOM_NAME
  | INVALID_START_DATE
  | ROOM_NOT_FOUND
  | ROOM_FULL
  | FORBIDDEN
  | EMPTY_MESSAGE
  | MESSAGE_TOO_LONG
  | INTERNAL
deriving DecidableEq

/-- An acknowledgement value: `ok(data)` or `err(code, message)`. -/
inductive Res (α : Type) where
  | ok (data : α)
  | err (code : ErrCode) (message : String)
deriving DecidableEq

/-- Whether a result is an error. -/
def Res.isErr {α : Type} : Res α → Bool
  | .ok _ => false
  | .err _ _ => true

/-- The four process-wide stores of the source. -/
structure ServerState where
  users : List (String × User)
  rooms : List (String × Room)
  roomMembers : List (String × List String)
  messagesByRoom : List (String × List Message)
deriving DecidableEq

/-- Projection returned by room listing:
`{id, name, startDate, maxUsers, members}`. -/
structure RoomSummary where
  id : String
  name : List Char
  startDate : CalDate
  maxUsers : Int
  members : Nat
deriving DecidableEq

/-- First seed room (`room_001`, "Support Room", capacity 10). -/
def seedRoom1 (today : CalDate) (nowMs : Nat) : Room :=
  { id := "room_001", name := "Support Room".toList, startDate := today,
    maxUsers := 10, createdAt := nowMs, createdByUserId := "system" }

/-- Second seed room (`room_002`, "Sales Room", capacity 5). -/
def seedRoom2 (today : CalDate) (nowMs : Nat) : Room :=
  { id := "room_002", name := "Sales Room".toList, startDate := today,
    maxUsers := 5, createdAt := nowMs, createdByUserId := "system" }

/-- The state after `seedRooms()`: two rooms with empty membership sets
and empty message logs, no users. -/
def seedState (today : CalDate) (nowMs : Nat) : ServerState :=
  { users := []
    rooms := [("room_001", seedRoom1 today nowMs), ("room_002", seedRoom2 today nowMs)]
    roomMembers := [("room_001", []), ("room_002", [])]
    messagesByRoom := [("room_001", []), ("room_002", [])] }

/-- The `sdk:user:create` handler. `keys` is the configured API key list,
`today`/`nowMs` the clock, `freshId` the generated `u_<nanoid>` id. -/
def userCreate (keys : List String) (today : CalDate) (nowMs : Nat)
    (freshId : String) (payload : Option CreateUserPayload) (s : ServerState) :
    Res User × ServerState :=
  match payload with
  | none => (.err .BAD_REQUEST "Payload required", s)
  | some p =>
    if !(keys.contains p.apiKey) then (.err .UNAUTHORIZED "Invalid apiKey", s)
    else if !p.agreedToTerms then (.err .TERMS_REQUIRED "Must agree to terms", s)
    else if p.name.isEmpty || p.name.length > 30 then
      (.err .INVALID_NAME "Invalid name", s)
    else if !(p.name.all isNameChar) then
      (.err .INVALID_NAME "Name must be letters only", s)
    else if p.email.isEmpty || !(validEmail p.email) then
      (.err .INVALID_EMAIL "Invalid email", s)
    else if p.dob = DateInput.empty || !(isAtLeast18 today p.dob) then
      (.err .INVALID_DOB "Must be at least 18", s)
    else
      let user : User :=
        { id := freshId
          name := jsTrim p.name
          email := (jsTrim p.email).map Char.toLower
          dob := p.dob
          gender := p.gender.getD .Male
          createdAt := nowMs }
      (.ok user, { s with users := alSet s.users freshId user })

/-- The `sdk:room:create` handler. `freshId` is the generated
`room_<nanoid>` id. -/
def roomCreate (keys : List String) (today : CalDate) (nowMs : Nat)
    (freshId : String) (payload : Option CreateRoomPayload) (s : ServerState) :
    Res Room × ServerState :=
  match payload with
  | none => (.err .BAD_REQUEST "Payload required", s)
  | some p =>
    if !(keys.contains p.apiKey) then (.err .UNAUTHORIZED "Invalid apiKey", s)
    else if (alGet s.users p.userId).isNone then
      (.err .USER_NOT_FOUND "User not found", s)
    else
      let roomName := jsTrim p.roomName
      if roomName.isEmpty then (.err .INVALID_ROOM_NAME "Room name required", s)
      else if roomName.length > 50 then (.err .INVALID_ROOM_NAME "Max 50 chars", s)
      else
        let startDate := match p.startDate with
          | .empty => DateInput.parsed today
          | d => d
        match startDate with
        | .parsed d =>
          if !(dateOnOrAfter d today) then
            (.err .INVALID_START_DATE "Start date cannot be in the past", s)
          else
            let maxUsers : Int := max 2 (min 10 (p.maxUsers.getD 2))
            let room : Room :=
              { id := freshId, name := roomName, startDate := d,
                maxUsers := maxUsers, createdAt := nowMs,
                createdByUserId := p.userId }
            let s1 : ServerState :=
              { s with rooms := alSet s.rooms freshId room
                       roomMembers := alSet s.roomMembers freshId []
                       messagesByRoom := alSet s.messagesByRoom freshId [] }
            let s2 : ServerState :=
              { s1 with roomMembers := alSet s1.roomMembers freshId (setAdd [] p.userId) }
            (.ok room, s2)
        | _ => (.err .INVALID_START_DATE "Start date cannot be in the past", s)

/-- The `sdk:room:join` handler. -/
def roomJoin (keys : List String) (payload : Option JoinRoomPayload)
    (s : ServerState) : Res (Room × List Message) × ServerState :=
  match payload with
  | none => (.err .BAD_REQUEST "Payload required", s)
  | some p =>
    if !(keys.contains p.apiKey) then (.err .UNAUTHORIZED "Invalid apiKey", s)
    else if (alGet s.users p.userId).isNone then
      (.err .USER_NOT_FOUND "User not found", s)
    else
      match alGet s.rooms p.roomId with
      | none => (.err .ROOM_NOT_FOUND "Room not found", s)
      | some room =>
        let members := (alGet s.roomMembers room.id).getD []
        if (room.maxUsers ≤ (members.length : Int)) ∧ p.userId ∉ members then
          (.err .ROOM_FULL "Room is full", s)
        else
          let members2 := setAdd members p.userId
          let s2 : ServerState :=
            { s with roomMembers := alSet s.roomMembers room.id members2 }
          let recentMessages := sliceLast 50 ((alGet s.messagesByRoom room.id).getD [])
          (.ok (room, recentMessages), s2)

/-- The `sdk:message:send` handler. `freshId` is the generated
`m_<nanoid>` id. -/
def messageSend (keys : List String) (nowMs : Nat) (freshId : String)
    (payload : Option SendMessagePayload) (s : ServerState) :
    Res Message × ServerState :=
  match payload with
  | none => (.err .BAD_REQUEST "Payload required", s)
  | some p =>
    if !(keys.contains p.apiKey) then (.err .UNAUTHORIZED "Invalid apiKey", s)
    else
      match alGet s.users p.userId with
      | none => (.err .USER_NOT_FOUND "User not found", s)
      | some user =>
        match alGet s.rooms p.roomId with
        | none => (.err .ROOM_NOT_FOUND "Room not found", s)
        | some room =>
          let members := alGet s.roomMembers room.id
          if !((members.getD []).contains user.id) then
            (.err .FORBIDDEN "User is not in the room", s)
          else
            let text := jsTrim p.text
            if text.isEmpty then (.err .EMPTY_MESSAGE "Message cannot be empty", s)
            else if text.length > 2000 then
              (.err .MESSAGE_TOO_LONG "Max 2000 chars", s)
            else
              let msg : Message :=
                { id := freshId, roomId := room.id, senderUserId := user.id,
                  senderName := user.name, text := text, createdAt := nowMs }
              let list := (alGet s.messagesByRoom room.id).getD []
              (.ok msg,
               { s with messagesByRoom := alSet s.messagesByRoom room.id (list ++ [msg]) })

/-- The `sdk:room:list` handler: `payload?.apiKey` must be a configured
key; on success, a projection of every room in insertion order. -/
def roomList (keys : List String) (payload : Option RoomListPayload)
    (s : ServerState) : Res (List RoomSummary) × ServerState :=
  if !(match payload with
       | some p => keys.contains p.apiKey
       | none => false) then
    (.err .UNAUTHORIZED "Invalid apiKey", s)
  else
    (.ok (s.rooms.map fun pr =>
      { id := pr.2.id, name := pr.2.name, startDate := pr.2.startDate,
        maxUsers := pr.2.maxUsers,
        members := ((alGet s.roomMembers pr.2.id).map List.length).getD 0 }),
     s)

/-- A small concrete room used to exercise `sdk:room:join`: capacity 2. -/
def joinDemoRoom : Room :=
  { id := "room_001", name := [], startDate := ⟨2026, 9, 11⟩, maxUsers := 2,
    createdAt := 0, createdByUserId := "u1" }

/-- A small concrete state: one user `u1`, the room `room_001` at
capacity with members `u1`, `u2`, empty log. -/
def joinDemoState : ServerState :=
  { users := [("u1", { id := "u1", name := [], email := [], dob := .invalid,
                       gender := .Male, createdAt := 0 })],
    rooms := [("room_001", joinDemoRoom)],
    roomMembers := [("room_001", ["u1", "u2"])],
    messagesByRoom := [("room_001", [])] }

/-- One mutating operation of the coordinator, with arbitrary API key
configuration, clock and generated ids. -/
inductive Step : ServerState → ServerState → Prop where
  | ofUserCreate (keys : List String) (today : CalDate) (nowMs : Nat)
      (freshId : String) (payload : Option CreateUserPayload) (s : ServerState) :
      Step s (userCreate keys today nowMs freshId payload s).2
  | ofRoomCreate (keys : List String) (today : CalDate) (nowMs : Nat)
      (freshId : String) (payload : Option CreateRoomPayload) (s : ServerState) :
      Step s (roomCreate keys today nowMs freshId payload s).2
  | ofRoomJoin (keys : List String) (payload : Option JoinRoomPayload)
      (s : ServerState) :
      Step s (roomJoin keys payload s).2
  | ofMessageSend (keys : List String) (nowMs : Nat) (freshId : String)
      (payload : Option SendMessagePayload) (s : ServerState) :
      Step s (messageSend keys nowMs freshId payload s).2

/-- States reachable from the seeded initial state by the coordinator's
mutating operations. -/
inductive Reachable : ServerState → Prop where
  | seed (today : CalDate) (nowMs : Nat) : Reachable (seedState today nowMs)
  | step {s s2 : ServerState} : Reachable s → Step s s2 → Reachable s2

/-- Internal invariant: every stored room is keyed by its own id, has
capacity at least 2, and its membership set is within capacity. -/
def Inv (s : ServerState) : Prop :=
  ∀ rid r, alGet s.rooms rid = some r →
    r.id = rid ∧ 2 ≤ r.maxUsers ∧
    (((alGet s.roomMembers rid).getD []).length : Int) ≤ r.maxUsers

/-- The error code of a result, if any. -/
def Res.errCode {α : Type} : Res α → Option ErrCode
  | .ok _ => none
  | .err c _ => some c

/-- Gregorian leap year (as used by JS `Date` calendar arithmetic). -/
def isLeapYear (y : Int) : Bool :=
  (y % 4 = 0 && !(y % 100 = 0)) || y % 400 = 0

/-- Number of days in a month, with the 0-based month convention of
`Date.prototype.getMonth`. -/
def daysInMonth (y m : Int) : Int :=
  if m = 1 then (if isLeapYear y then 29 else 28)
  else if m = 3 ∨ m = 5 ∨ m = 8 ∨ m = 10 then 30
  else 31

/-- A structurally valid calendar date (month in range, day in range for
the month). -/
def ValidDate (d : CalDate) : Prop :=
  0 ≤ d.month ∧ d.month ≤ 11 ∧ 1 ≤ d.day ∧ d.day ≤ daysInMonth d.year d.month

instance (d : CalDate) : Decidable (ValidDate d) := by
  unfold ValidDate
  infer_instance

/-- The next calendar day. -/
def nextDay (d : CalDate) : CalDate :=
  if d.day < daysInMonth d.year d.month then ⟨d.year, d.month, d.day + 1⟩
  else if d.month < 11 then ⟨d.year, d.month + 1, 1⟩
  else ⟨d.year + 1, 0, 1⟩

/-- Every stored room is keyed by its own id (true of all states the
server ever builds; the handlers look membership and logs up by
`room.id` after fetching the room by the payload's `roomId`). -/
def WellKeyedRooms (s : ServerState) : Prop :=
  ∀ rid r, alGet s.rooms rid = some r → r.id = rid

/-- Run a list of `sdk:message:send` requests in sequence (each with its
generated message id), collecting the messages of the successful calls
in call order. -/
def runSends (keys : List String) (nowMs : Nat) :
    List (SendMessagePayload × String) → ServerState → ServerState × List Message
  | [], s => (s, [])
  | (p, freshId) :: rest, s =>
    match messageSend keys nowMs freshId (some p) s with
    | (.ok msg, s1) =>
      let r := runSends keys nowMs rest s1
      (r.1, msg :: r.2)
    | (.err _ _, s1) => runSends keys nowMs rest s1

theorem alGet_alSet_self {α : Type _} (m : List (String × α)) (k : String) (v : α) :
    alGet (alSet m k v) k = some v := by
  induction m with
  | nil => simp [alSet, alGet]
  | cons hd t ih =>
    obtain ⟨k1, v1⟩ := hd
    by_cases hk : k1 = k <;> simp [alSet, alGet, hk, ih]

theorem alGet_alSet_ne {α : Type _} (m : List (String × α)) (k k2 : String) (v : α)
    (h : k2 ≠ k) : alGet (alSet m k v) k2 = alGet m k2 := by
  induction m with
  | nil => simp [alSet, alGet, Ne.symm h]
  | cons hd t ih =>
    obtain ⟨k1, v1⟩ := hd
    by_cases hk : k1 = k
    · subst hk
      simp [alSet, alGet, Ne.symm h]
    · by_cases hk2 : k1 = k2 <;> simp [alSet, alGet, hk, hk2, ih, h]

theorem alSet_alSet_self {α : Type _} (m : List (String × α)) (k : String) (a b : α) :
    alSet (alSet m k a) k b = alSet m k b := by
  induction m with
  | nil => simp [alSet]
  | cons hd t ih =>
    obtain ⟨k1, v1⟩ := hd
    by_cases hk : k1 = k <;> simp [alSet, hk, ih]

theorem alSet_eq_of_alGet {α : Type _} (m : List (String × α)) (k : String) (v : α)
    (h : alGet m k = some v) : alSet m k v = m := by
  induction m with
  | nil => simp [alGet] at h
  | cons hd t ih =>
    obtain ⟨k1, v1⟩ := hd
    by_cases hk : k1 = k
    · subst hk
      simp [alGet] at h
      simp [alSet, h]
    · simp [alGet, hk] at h
      simp [alSet, hk, ih h]

theorem setAdd_of_mem {s : List String} {x : String} (h : x ∈ s) :
    setAdd s x = s := by
  simp [setAdd, h]

theorem length_setAdd_of_not_mem {s : List String} {x : String} (h : x ∉ s) :
    (setAdd s x).length = s.length + 1 := by
  simp [setAdd, h]

/-- The capacity invariant only mentions the `rooms` and `roomMembers`
stores, so it transfers along equalities of those two stores. -/
theorem inv_congr {s1 s2 : ServerState} (h1 : s2.rooms = s1.rooms)
    (h2 : s2.roomMembers = s1.roomMembers) (hs : Inv s1) : Inv s2 := by
  intro rid r h
  rw [h1] at h
  rw [h2]
  exact hs rid r h

theorem inv_seed (today : CalDate) (nowMs : Nat) : Inv (seedState today nowMs) := by
  intro rid r h
  by_cases h1 : rid = "room_001"
  · subst h1
    simp [seedState, alGet] at h
    subst h
    refine ⟨rfl, by norm_num [seedRoom1], ?_⟩
    simp [seedState, alGet, seedRoom1]
  · by_cases h2 : rid = "room_002"
    · subst h2
      simp [seedState, alGet] at h
      subst h
      refine ⟨rfl, by norm_num [seedRoom2], ?_⟩
      simp [seedState, alGet, seedRoom2]
    · exfalso
      simp [seedState, alGet, Ne.symm h1, Ne.symm h2] at h

theorem userCreate_stores (keys : List String) (today : CalDate) (nowMs : Nat)
    (freshId : String) (payload : Option CreateUserPayload) (s : ServerState) :
    (userCreate keys today nowMs freshId payload s).2.rooms = s.rooms ∧
    (userCreate keys today nowMs freshId payload s).2.roomMembers = s.roomMembers := by
  unfold userCreate
  rcases payload with _ | p
  · exact ⟨rfl, rfl⟩
  · dsimp only
    repeat' split
    all_goals exact ⟨rfl, rfl⟩

theorem messageSend_stores (keys : List String) (nowMs : Nat) (freshId : String)
    (payload : Option SendMessagePayload) (s : ServerState) :
    (messageSend keys nowMs freshId payload s).2.rooms = s.rooms ∧
    (messageSend keys nowMs freshId payload s).2.roomMembers = s.roomMembers := by
  unfold messageSend
  rcases payload with _ | p
  · exact ⟨rfl, rfl⟩
  · dsimp only
    repeat' split
    all_goals exact ⟨rfl, rfl⟩

theorem inv_roomCreate (keys : List String) (today : CalDate) (nowMs : Nat)
    (freshId : String) (payload : Option CreateRoomPayload) (s : ServerState)
    (hs : Inv s) : Inv (roomCreate keys today nowMs freshId payload s).2 := by
  unfold roomCreate
  rcases payload with _ | p
  · exact hs
  · dsimp only
    split
    · exact hs
    split
    · exact hs
    split
    · exact hs
    split
    · exact hs
    split
    · rename_i d heq
      split
      · exact hs
      · intro rid r h
        dsimp only at h ⊢
        rw [alSet_alSet_self]
        by_cases hrid : rid = freshId
        · subst hrid
          rw [alGet_alSet_self] at h
          injection h with h
          subst h
          refine ⟨rfl, le_max_left 2 _, ?_⟩
          rw [alGet_alSet_self]
          simp [setAdd, le_max_iff]
        · rw [alGet_alSet_ne _ _ _ _ hrid] at h
          rw [alGet_alSet_ne _ _ _ _ hrid]
          exact hs rid r h
    · exact hs

theorem inv_roomJoin (keys : List String) (payload : Option JoinRoomPayload)
    (s : ServerState) (hs : Inv s) : Inv (roomJoin keys payload s).2 := by
  unfold roomJoin
  rcases payload with _ | p
  · exact hs
  · dsimp only
    split
    · exact hs
    split
    · exact hs
    split
    · exact hs
    rename_i room hroom
    split
    · exact hs
    rename_i hfull
    obtain ⟨hid, hcap, hlen⟩ := hs p.roomId room hroom
    rw [← hid] at hlen
    intro rid r h
    dsimp only at h ⊢
    by_cases hrid : rid = room.id
    · subst hrid
      rw [hid] at h
      rw [hroom] at h
      injection h with h
      subst h
      refine ⟨rfl, hcap, ?_⟩
      rw [alGet_alSet_self]
      by_cases hmem : p.userId ∈ (alGet s.roomMembers room.id).getD []
      · rw [setAdd_of_mem hmem]
        simpa using hlen
      · simp only [Option.getD_some]
        rw [length_setAdd_of_not_mem hmem]
        have hnot : ¬ (room.maxUsers ≤ (((alGet s.roomMembers room.id).getD []).length : Int)) := by
          intro hle
          exact hfull ⟨hle, hmem⟩
        push_cast
        push_cast at hnot hlen
        omega
    · refine ⟨(hs rid r h).1, (hs rid r h).2.1, ?_⟩
      rw [alGet_alSet_ne _ _ _ _ hrid]
      exact (hs rid r h).2.2

theorem inv_step {s1 s2 : ServerState} (hs : Inv s1) (h : Step s1 s2) : Inv s2 := by
  cases h with
  | ofUserCreate keys today nowMs freshId payload =>
    exact inv_congr (userCreate_stores keys today nowMs freshId payload s1).1
      (userCreate_stores keys today nowMs freshId payload s1).2 hs
  | ofRoomCreate keys today nowMs freshId payload =>
    exact inv_roomCreate keys today nowMs freshId payload s1 hs
  | ofRoomJoin keys payload =>
    exact inv_roomJoin keys payload s1 hs
  | ofMessageSend keys nowMs freshId payload =>
    exact inv_congr (messageSend_stores keys nowMs freshId payload s1).1
      (messageSend_stores keys nowMs freshId payload s1).2 hs

theorem inv_reachable {s : ServerState} (h : Reachable s) : Inv s := by
  induction h with
  | seed today nowMs => exact inv_seed today nowMs
  | step _ hstep ih => exact inv_step ih hstep

theorem jsTrim_eq_nil_of_all_space {l : List Char} (h : l.all isJsSpace = true) :
    jsTrim l = [] := by
  rw [List.all_eq_true] at h
  have h1 : l.dropWhile isJsSpace = [] := List.dropWhile_eq_nil_iff.mpr fun x hx => h x hx
  simp [jsTrim, h1]

theorem sliceLast_suffix {α : Type _} (n : Nat) (l : List α) :
    ∃ pre, l = pre ++ sliceLast n l :=
  ⟨l.take (l.length - n), (List.take_append_drop _ l).symm⟩

theorem sliceLast_length {α : Type _} (n : Nat) (l : List α) :
    (sliceLast n l).length = min l.length n := by
  simp [sliceLast]
  omega

theorem runSends_length_le (keys : List String) (nowMs : Nat)
    (sends : List (SendMessagePayload × String)) (s : ServerState) :
    (runSends keys nowMs sends s).2.length ≤ sends.length := by
  induction sends generalizing s with
  | nil => simp [runSends]
  | cons hd rest ih =>
    obtain ⟨p, fid⟩ := hd
    cases hms : messageSend keys nowMs fid (some p) s with
    | mk res s1 =>
      cases res with
      | ok msg =>
        simp only [runSends, hms, List.length_cons]
        exact Nat.succ_le_succ (ih s1)
      | err c m =>
        simp only [runSends, hms, List.length_cons]
        exact Nat.le_succ_of_le (ih s1)

theorem messageSend_ok (keys : List String) (nowMs : Nat) (freshId : String)
    (p : SendMessagePayload) (s : ServerState) (msg : Message) (s1 : ServerState)
    (hwk : WellKeyedRooms s)
    (h : messageSend keys nowMs freshId (some p) s = (.ok msg, s1)) :
    msg.roomId = p.roomId ∧
    s1.rooms = s.rooms ∧
    s1.messagesByRoom = alSet s.messagesByRoom p.roomId
      ((alGet s.messagesByRoom p.roomId).getD [] ++ [msg]) := by
  unfold messageSend at h
  dsimp only at h
  split at h
  · simp at h
  · split at h
    · simp at h
    · rename_i user hu
      split at h
      · simp at h
      · rename_i room hroom
        split at h
        · simp at h
        · split at h
          · simp at h
          · split at h
            · simp at h
            · simp only [Prod.mk.injEq, Res.ok.injEq] at h
              obtain ⟨hmsg, hs1⟩ := h
              have hid : room.id = p.roomId := hwk p.roomId room hroom
              subst hmsg
              refine ⟨hid, ?_, ?_⟩
              · rw [← hs1]
              · rw [← hs1]
                rw [hid]

theorem runSends_log (keys : List String) (nowMs : Nat)
    (sends : List (SendMessagePayload × String)) (s : ServerState) (rid : String)
    (hwk : WellKeyedRooms s)
    (hroom : ∀ ps ∈ sends, ps.1.roomId = rid)
    (hall : (runSends keys nowMs sends s).2.length = sends.length) :
    (alGet (runSends keys nowMs sends s).1.messagesByRoom rid).getD [] =
      (alGet s.messagesByRoom rid).getD [] ++ (runSends keys nowMs sends s).2 := by
  induction sends generalizing s with
  | nil => simp [runSends]
  | cons hd rest ih =>
    obtain ⟨p, fid⟩ := hd
    cases hms : messageSend keys nowMs fid (some p) s with
    | mk res s1 =>
      cases res with
      | err c m =>
        exfalso
        have hle := runSends_length_le keys nowMs rest s1
        simp only [runSends, hms, List.length_cons] at hall
        omega
      | ok msg =>
        obtain ⟨hrid, hrooms, hlog⟩ := messageSend_ok keys nowMs fid p s msg s1 hwk hms
        have hkey : p.roomId = rid := hroom (p, fid) (List.mem_cons_self _ _)
        have hwk1 : WellKeyedRooms s1 := by
          intro r2 r hr
          rw [hrooms] at hr
          exact hwk r2 r hr
        have hall1 : (runSends keys nowMs rest s1).2.length = rest.length := by
          simp only [runSends, hms, List.length_cons] at hall
          omega
        have hroom1 : ∀ ps ∈ rest, ps.1.roomId = rid :=
          fun ps hp => hroom ps (List.mem_cons_of_mem _ hp)
        have hih := ih s1 hwk1 hroom1 hall1
        simp only [runSends, hms]
        rw [hih]
        have hlog1 : (alGet s1.messagesByRoom rid).getD [] =
            (alGet s.messagesByRoom rid).getD [] ++ [msg] := by
          rw [hlog, hkey, alGet_alSet_self]
          rfl
        rw [hlog1]
        simp

/-- Claim C3: there is no partial-failure state: whenever
`sdk:user:create`, `sdk:room:create`, `sdk:room:join` or
`sdk:message:send` returns an error result, the post-state equals the
pre-state, so none of the four stores is modified. -/
theorem claim_C3_no_partial_failure :
    (∀ (keys : List String) (today : CalDate) (nowMs : Nat) (freshId : String)
       (payload : Option CreateUserPayload) (s : ServerState),
       ((userCreate keys today nowMs freshId payload s).1).isErr = true →
       (userCreate keys today nowMs freshId payload s).2 = s) ∧
    (∀ (keys : List String) (today : CalDate) (nowMs : Nat) (freshId : String)
       (payload : Option CreateRoomPayload) (s : ServerState),
       ((roomCreate keys today nowMs freshId payload s).1).isErr = true →
       (roomCreate keys today nowMs freshId payload s).2 = s) ∧
    (∀ (keys : List String) (payload : Option JoinRoomPayload) (s : ServerState),
       ((roomJoin keys payload s).1).isErr = true →
       (roomJoin keys payload s).2 = s) ∧
    (∀ (keys : List String) (nowMs : Nat) (freshId : String)
       (payload : Option SendMessagePayload) (s : ServerState),
       ((messageSend keys nowMs freshId payload s).1).isErr = true →
       (messageSend keys nowMs freshId payload s).2 = s) := by
  refine ⟨?_, ?_, ?_, ?_⟩
  · intro keys today nowMs freshId payload s
    unfold userCreate
    rcases payload with _ | p
    · intro _
      rfl
    · dsimp only
      repeat' split
      all_goals intro h
      all_goals first | rfl | simp [Res.isErr] at h
  · intro keys today nowMs freshId payload s
    unfold roomCreate
    rcases payload with _ | p
    · intro _
      rfl
    · dsimp only
      repeat' split
      all_goals intro h
      all_goals first | rfl | simp [Res.isErr] at h
  · intro keys payload s
    unfold roomJoin
    rcases payload with _ | p
    · intro _
      rfl
    · dsimp only
      repeat' split
      all_goals intro h
      all_goals first | rfl | simp [Res.isErr] at h
  · intro keys nowMs freshId payload s
    unfold messageSend
    rcases payload with _ | p
    · intro _
      rfl
    · dsimp only
      repeat' split
      all_goals intro h
      all_goals first | rfl | simp [Res.isErr] at h

/-- Witness for claim C3: a concrete failing `sdk:user:create` call
(absent payload) leaves the seeded state untouched. -/
theorem claim_C3_no_partial_failure_witness :
    ((userCreate ["demo-key"] ⟨2026, 9, 11⟩ 0 "u_1" none
        (seedState ⟨2026, 9, 11⟩ 0)).1).isErr = true ∧
    (userCreate ["demo-key"] ⟨2026, 9, 11⟩ 0 "u_1" none
        (seedState ⟨2026, 9, 11⟩ 0)).2 = seedState ⟨2026, 9, 11⟩ 0 :=
  ⟨by decide,
   claim_C3_no_partial_failure.1 ["demo-key"] ⟨2026, 9, 11⟩ 0 "u_1" none
     (seedState ⟨2026, 9, 11⟩ 0) (by decide)⟩

/-- Claim C4 is false on the code (counterexample): `sdk:message:send`
with a valid apiKey, a userId naming no user and a roomId naming no room
reports `USER_NOT_FOUND`, not `ROOM_NOT_FOUND` as the claim states. -/
theorem claim_C4_counterexample :
    (messageSend ["demo-key"] 0 "m_1"
        (some { apiKey := "demo-key", userId := "ghost", roomId := "nope",
                text := "hi".toList })
        (seedState ⟨2026, 9, 11⟩ 0)).1 = .err .USER_NOT_FOUND "User not found" ∧
    ((messageSend ["demo-key"] 0 "m_1"
        (some { apiKey := "demo-key", userId := "ghost", roomId := "nope",
                text := "hi".toList })
        (seedState ⟨2026, 9, 11⟩ 0)).1).errCode ≠ some .ROOM_NOT_FOUND := by
  exact ⟨by decide, by decide⟩

/-- Claim C4 (amended): `sdk:message:send` checks sender existence before
room existence: with a valid apiKey, a missing user yields
`USER_NOT_FOUND` even when the room is also missing, and
`ROOM_NOT_FOUND` is reported exactly when the user exists and the room
does not. -/
theorem messageSend_no_room_error_of_found (keys : List String) (nowMs : Nat)
    (freshId : String) (p : SendMessagePayload) (s : ServerState)
    (user : User) (room : Room)
    (hmem : p.apiKey ∈ keys)
    (hu : alGet s.users p.userId = some user)
    (hr : alGet s.rooms p.roomId = some room) :
    ((messageSend keys nowMs freshId (some p) s).1).errCode ≠
      some ErrCode.ROOM_NOT_FOUND := by
  by_cases hmemb : user.id ∈ (alGet s.roomMembers room.id).getD []
  · by_cases htext : jsTrim p.text = []
    · have hres : (messageSend keys nowMs freshId (some p) s).1 =
          .err .EMPTY_MESSAGE "Message cannot be empty" := by
        simp [messageSend, hmem, hu, hr, hmemb, htext]
      rw [hres]
      simp [Res.errCode]
    · by_cases hlen : (jsTrim p.text).length > 2000
      · have hres : (messageSend keys nowMs freshId (some p) s).1 =
            .err .MESSAGE_TOO_LONG "Max 2000 chars" := by
          simp [messageSend, hmem, hu, hr, hmemb, htext, hlen]
        rw [hres]
        simp [Res.errCode]
      · have hres : (messageSend keys nowMs freshId (some p) s).1 =
            .ok { id := freshId, roomId := room.id, senderUserId := user.id,
                  senderName := user.name, text := jsTrim p.text,
                  createdAt := nowMs } := by
          simp [messageSend, hmem, hu, hr, hmemb, htext, hlen]
        rw [hres]
        simp [Res.errCode]
  · have hres : (messageSend keys nowMs freshId (some p) s).1 =
        .err .FORBIDDEN "User is not in the room" := by
      simp [messageSend, hmem, hu, hr, hmemb]
    rw [hres]
    simp [Res.errCode]

theorem claim_C4_user_before_room (keys : List String) (nowMs : Nat)
    (freshId : String) (p : SendMessagePayload) (s : ServerState)
    (hkey : keys.contains p.apiKey = true) :
    (alGet s.users p.userId = none →
      (messageSend keys nowMs freshId (some p) s).1 =
        .err .USER_NOT_FOUND "User not found") ∧
    (∀ u, alGet s.users p.userId = some u → alGet s.rooms p.roomId = none →
      (messageSend keys nowMs freshId (some p) s).1 =
        .err .ROOM_NOT_FOUND "Room not found") ∧
    (((messageSend keys nowMs freshId (some p) s).1).errCode =
        some ErrCode.ROOM_NOT_FOUND ↔
      (alGet s.users p.userId).isSome = true ∧ alGet s.rooms p.roomId = none) := by
  have hmem : p.apiKey ∈ keys := by
    simpa using hkey
  refine ⟨?_, ?_, ?_⟩
  · intro hu
    simp [messageSend, hmem, hu]
  · intro u hu hr
    simp [messageSend, hmem, hu, hr]
  · constructor
    · intro hcode
      cases hu : alGet s.users p.userId with
      | none =>
        exfalso
        have hres : (messageSend keys nowMs freshId (some p) s).1 =
            .err .USER_NOT_FOUND "User not found" := by
          simp [messageSend, hmem, hu]
        rw [hres] at hcode
        simp [Res.errCode] at hcode
      | some u =>
        cases hr : alGet s.rooms p.roomId with
        | none => exact ⟨by simp, rfl⟩
        | some room =>
          exact absurd hcode
            (messageSend_no_room_error_of_found keys nowMs freshId p s u room
              hmem hu hr)
    · intro hok
      obtain ⟨husome, hr⟩ := hok
      rcases Option.isSome_iff_exists.mp husome with ⟨u, hu⟩
      have hres : (messageSend keys nowMs freshId (some p) s).1 =
          .err .ROOM_NOT_FOUND "Room not found" := by
        simp [messageSend, hmem, hu, hr]
      rw [hres]
      rfl

/-- Witness for the amended claim C4 at a concrete input. -/
theorem claim_C4_user_before_room_witness :
    (["demo-key"] : List String).contains "demo-key" = true ∧
    (alGet (seedState ⟨2026, 9, 11⟩ 0).users "ghost" = none →
      (messageSend ["demo-key"] 0 "m_1"
        (some { apiKey := "demo-key", userId := "ghost", roomId := "nope",
                text := "hi".toList })
        (seedState ⟨2026, 9, 11⟩ 0)).1 =
          .err .USER_NOT_FOUND "User not found") :=
  ⟨by decide,
   (claim_C4_user_before_room ["demo-key"] 0 "m_1"
     { apiKey := "demo-key", userId := "ghost", roomId := "nope",
       text := "hi".toList }
     (seedState ⟨2026, 9, 11⟩ 0) (by decide)).1⟩

/-- Claim C5 is false on the code (counterexample): `sdk:room:create`
with a valid apiKey, a userId naming no user and an empty (hence
invalid) room name reports `USER_NOT_FOUND`, not `INVALID_ROOM_NAME` as
the claim states. -/
theorem claim_C5_counterexample :
    (roomCreate ["demo-key"] ⟨2026, 9, 11⟩ 0 "room_x"
        (some { apiKey := "demo-key", userId := "ghost", roomName := [],
                startDate := .empty, maxUsers := none })
        (seedState ⟨2026, 9, 11⟩ 0)).1 = .err .USER_NOT_FOUND "User not found" ∧
    ((roomCreate ["demo-key"] ⟨2026, 9, 11⟩ 0 "room_x"
        (some { apiKey := "demo-key", userId := "ghost", roomName := [],
                startDate := .empty, maxUsers := none })
        (seedState ⟨2026, 9, 11⟩ 0)).1).errCode ≠ some .INVALID_ROOM_NAME := by
  exact ⟨by decide, by decide⟩

/-- Claim C5 (amended): in `sdk:room:create` the creator-existence check
runs right after authorization and before room-name validation: with a
valid apiKey a missing creator yields `USER_NOT_FOUND` whatever the room
name, and an invalid room name yields `INVALID_ROOM_NAME` only when the
creator exists. -/
theorem claim_C5_user_before_name (keys : List String) (today : CalDate)
    (nowMs : Nat) (freshId : String) (p : CreateRoomPayload) (s : ServerState)
    (hkey : keys.contains p.apiKey = true) :
    (alGet s.users p.userId = none →
      (roomCreate keys today nowMs freshId (some p) s).1 =
        .err .USER_NOT_FOUND "User not found") ∧
    (∀ u, alGet s.users p.userId = some u → jsTrim p.roomName = [] →
      (roomCreate keys today nowMs freshId (some p) s).1 =
        .err .INVALID_ROOM_NAME "Room name required") ∧
    (∀ u, alGet s.users p.userId = some u → (jsTrim p.roomName).length > 50 →
      (roomCreate keys today nowMs freshId (some p) s).1 =
        .err .INVALID_ROOM_NAME "Max 50 chars") := by
  have hmem : p.apiKey ∈ keys := by
    simpa using hkey
  refine ⟨?_, ?_, ?_⟩
  · intro hu
    simp [roomCreate, hmem, hu]
  · intro u hu hname
    simp [roomCreate, hmem, hu, hname]
  · intro u hu hname
    have hne : ¬ (jsTrim p.roomName = []) := by
      intro hcon
      rw [hcon] at hname
      simp at hname
    simp [roomCreate, hmem, hu, hne, hname]

/-- Witness for the amended claim C5 at a concrete input. -/
theorem claim_C5_user_before_name_witness :
    (["demo-key"] : List String).contains "demo-key" = true ∧
    (alGet (seedState ⟨2026, 9, 11⟩ 0).users "ghost" = none →
      (roomCreate ["demo-key"] ⟨2026, 9, 11⟩ 0 "room_x"
        (some { apiKey := "demo-key", userId := "ghost", roomName := [],
                startDate := .empty, maxUsers := none })
        (seedState ⟨2026, 9, 11⟩ 0)).1 =
          .err .USER_NOT_FOUND "User not found") :=
  ⟨by decide,
   (claim_C5_user_before_name ["demo-key"] ⟨2026, 9, 11⟩ 0 "room_x"
     { apiKey := "demo-key", userId := "ghost", roomName := [],
       startDate := .empty, maxUsers := none }
     (seedState ⟨2026, 9, 11⟩ 0) (by decide)).1⟩

/-- Claim C6 is false on the code (counterexample): an absent payload —
whose apiKey is therefore not in the configured key list — makes
`sdk:user:create` report `BAD_REQUEST`, not `UNAUTHORIZED` as the claim
states for every payload including an absent one. -/
theorem claim_C6_counterexample :
    (userCreate ["demo-key"] ⟨2026, 9, 11⟩ 0 "u_1" none
        (seedState ⟨2026, 9, 11⟩ 0)).1 = .err .BAD_REQUEST "Payload required" ∧
    ((userCreate ["demo-key"] ⟨2026, 9, 11⟩ 0 "u_1" none
        (seedState ⟨2026, 9, 11⟩ 0)).1).errCode ≠ some .UNAUTHORIZED := by
  exact ⟨by decide, by decide⟩

/-- Claim C6 (amended): for every *present* payload whose apiKey is not
in the configured key list, all five operations report `UNAUTHORIZED`
before any other validation; an absent payload instead reports
`BAD_REQUEST` in the four mutating operations, while `sdk:room:list`
still reports `UNAUTHORIZED`. -/
theorem claim_C6_auth_first :
    (∀ (keys : List String) (today : CalDate) (nowMs : Nat) (freshId : String)
       (p : CreateUserPayload) (s : ServerState), keys.contains p.apiKey = false →
       (userCreate keys today nowMs freshId (some p) s).1 =
         .err .UNAUTHORIZED "Invalid apiKey") ∧
    (∀ (keys : List String) (today : CalDate) (nowMs : Nat) (freshId : String)
       (p : CreateRoomPayload) (s : ServerState), keys.contains p.apiKey = false →
       (roomCreate keys today nowMs freshId (some p) s).1 =
         .err .UNAUTHORIZED "Invalid apiKey") ∧
    (∀ (keys : List String) (p : JoinRoomPayload) (s : ServerState),
       keys.contains p.apiKey = false →
       (roomJoin keys (some p) s).1 = .err .UNAUTHORIZED "Invalid apiKey") ∧
    (∀ (keys : List String) (nowMs : Nat) (freshId : String)
       (p : SendMessagePayload) (s : ServerState), keys.contains p.apiKey = false →
       (messageSend keys nowMs freshId (some p) s).1 =
         .err .UNAUTHORIZED "Invalid apiKey") ∧
    (∀ (keys : List String) (p : RoomListPayload) (s : ServerState),
       keys.contains p.apiKey = false →
       (roomList keys (some p) s).1 = .err .UNAUTHORIZED "Invalid apiKey") ∧
    (∀ (keys : List String) (today : CalDate) (nowMs : Nat) (freshId : String)
       (s : ServerState),
       (userCreate keys today nowMs freshId none s).1 =
         .err .BAD_REQUEST "Payload required") ∧
    (∀ (keys : List String) (today : CalDate) (nowMs : Nat) (freshId : String)
       (s : ServerState),
       (roomCreate keys today nowMs freshId none s).1 =
         .err .BAD_REQUEST "Payload required") ∧
    (∀ (keys : List String) (s : ServerState),
       (roomJoin keys none s).1 = .err .BAD_REQUEST "Payload required") ∧
    (∀ (keys : List String) (nowMs : Nat) (freshId : String) (s : ServerState),
       (messageSend keys nowMs freshId none s).1 =
         .err .BAD_REQUEST "Payload required") ∧
    (∀ (keys : List String) (s : ServerState),
       (roomList keys none s).1 = .err .UNAUTHORIZED "Invalid apiKey") := by
  refine ⟨?_, ?_, ?_, ?_, ?_, ?_, ?_, ?_, ?_, ?_⟩
  · intro keys today nowMs freshId p s hkey
    have hmem : ¬ (p.apiKey ∈ keys) := by simpa using hkey
    simp [userCreate, hmem]
  · intro keys today nowMs freshId p s hkey
    have hmem : ¬ (p.apiKey ∈ keys) := by simpa using hkey
    simp [roomCreate, hmem]
  · intro keys p s hkey
    have hmem : ¬ (p.apiKey ∈ keys) := by simpa using hkey
    simp [roomJoin, hmem]
  · intro keys nowMs freshId p s hkey
    have hmem : ¬ (p.apiKey ∈ keys) := by simpa using hkey
    simp [messageSend, hmem]
  · intro keys p s hkey
    have hmem : ¬ (p.apiKey ∈ keys) := by simpa using hkey
    simp [roomList, hmem]
  · intro keys today nowMs freshId s
    rfl
  · intro keys today nowMs freshId s
    rfl
  · intro keys s
    rfl
  · intro keys nowMs freshId s
    rfl
  · intro keys s
    rfl

/-- Witness for the amended claim C6 at a concrete input. -/
theorem claim_C6_auth_first_witness :
    (["demo-key"] : List String).contains "bad-key" = false ∧
    (roomJoin ["demo-key"]
      (some { apiKey := "bad-key", userId := "u", roomId := "room_001" })
      (seedState ⟨2026, 9, 11⟩ 0)).1 = .err .UNAUTHORIZED "Invalid apiKey" :=
  ⟨by decide,
   claim_C6_auth_first.2.2.1 ["demo-key"]
     { apiKey := "bad-key", userId := "u", roomId := "room_001" }
     (seedState ⟨2026, 9, 11⟩ 0) (by decide)⟩

/-- Claim C1: in every state reachable from the seeded initial state by
the coordinator's operations, every stored room's membership set has at
most `maxUsers` members. -/
theorem claim_C1_capacity_invariant {s : ServerState} (h : Reachable s) :
    ∀ rid r, alGet s.rooms rid = some r →
      (((alGet s.roomMembers rid).getD []).length : Int) ≤ r.maxUsers :=
  fun rid r hr => (inv_reachable h rid r hr).2.2

/-- Witness for claim C1: the seeded initial state, room `room_001`. -/
theorem claim_C1_capacity_invariant_witness :
    alGet (seedState ⟨2026, 9, 11⟩ 0).rooms "room_001" =
      some (seedRoom1 ⟨2026, 9, 11⟩ 0) ∧
    (((alGet (seedState ⟨2026, 9, 11⟩ 0).roomMembers "room_001").getD []).length : Int) ≤
      (seedRoom1 ⟨2026, 9, 11⟩ 0).maxUsers :=
  ⟨by decide,
   claim_C1_capacity_invariant (Reachable.seed ⟨2026, 9, 11⟩ 0) "room_001"
     (seedRoom1 ⟨2026, 9, 11⟩ 0) (by decide)⟩

/-- Claim C2: with a valid apiKey, an existing user and an existing
room, `sdk:room:join` reports `ROOM_FULL` exactly when the user is not
already a member and the member count has reached `maxUsers`; a re-join
by an existing member succeeds (returning the room and recent history)
and leaves the membership store unchanged. -/
theorem claim_C2_room_full_iff (keys : List String) (p : JoinRoomPayload)
    (s : ServerState) (room : Room) (members : List String)
    (hkey : keys.contains p.apiKey = true)
    (huser : (alGet s.users p.userId).isSome = true)
    (hroom : alGet s.rooms p.roomId = some room)
    (hm : (alGet s.roomMembers room.id).getD [] = members) :
    ((roomJoin keys (some p) s).1 = .err .ROOM_FULL "Room is full" ↔
      (p.userId ∉ members ∧ room.maxUsers ≤ (members.length : Int))) ∧
    (p.userId ∈ members →
      (roomJoin keys (some p) s).1 =
        .ok (room, sliceLast 50 ((alGet s.messagesByRoom room.id).getD [])) ∧
      (roomJoin keys (some p) s).2.roomMembers = s.roomMembers) := by
  have hmem : p.apiKey ∈ keys := by
    simpa using hkey
  have huser2 : (alGet s.users p.userId).isNone = false := by
    rcases Option.isSome_iff_exists.mp huser with ⟨u, hu⟩
    simp [hu]
  by_cases hfull : (room.maxUsers ≤ (members.length : Int)) ∧ p.userId ∉ members
  · have hres : roomJoin keys (some p) s = (.err .ROOM_FULL "Room is full", s) := by
      simp [roomJoin, hmem, huser2, hroom, hm, hfull]
    rw [hres]
    constructor
    · simp only [true_iff]
      exact ⟨hfull.2, hfull.1⟩
    · intro hin
      exact absurd hin hfull.2
  · have hres : roomJoin keys (some p) s =
        (.ok (room, sliceLast 50 ((alGet s.messagesByRoom room.id).getD [])),
         { s with roomMembers := alSet s.roomMembers room.id (setAdd members p.userId) }) := by
      simp [roomJoin, hmem, huser2, hroom, hm, hfull]
    rw [hres]
    constructor
    · constructor
      · intro hcon
        exact absurd hcon (by simp)
      · intro hcon
        exact absurd ⟨hcon.2, hcon.1⟩ hfull
    · intro hin
      refine ⟨rfl, ?_⟩
      have hsome : alGet s.roomMembers room.id = some members := by
        cases hg : alGet s.roomMembers room.id with
        | none =>
          exfalso
          rw [hg] at hm
          rw [← hm] at hin
          simp at hin
        | some l =>
          rw [hg] at hm
          simp at hm
          rw [hm]
      dsimp only
      rw [setAdd_of_mem hin, alSet_eq_of_alGet s.roomMembers room.id members hsome]

/-- Witness for claim C2: in a concrete state where `room_001` (capacity
2) already holds `u1` and `u2`, the member `u1` re-joins successfully and
the membership store is unchanged. -/
theorem claim_C2_room_full_iff_witness :
    (["demo-key"] : List String).contains "demo-key" = true ∧
    (alGet joinDemoState.users "u1").isSome = true ∧
    alGet joinDemoState.rooms "room_001" = some joinDemoRoom ∧
    (alGet joinDemoState.roomMembers joinDemoRoom.id).getD [] = ["u1", "u2"] ∧
    (("u1" : String) ∈ (["u1", "u2"] : List String) →
      (roomJoin ["demo-key"]
        (some { apiKey := "demo-key", userId := "u1", roomId := "room_001" })
        joinDemoState).1 =
        .ok (joinDemoRoom,
             sliceLast 50 ((alGet joinDemoState.messagesByRoom joinDemoRoom.id).getD [])) ∧
      (roomJoin ["demo-key"]
        (some { apiKey := "demo-key", userId := "u1", roomId := "room_001" })
        joinDemoState).2.roomMembers = joinDemoState.roomMembers) :=
  ⟨by decide, by decide, by decide, by decide,
   (claim_C2_room_full_iff ["demo-key"]
     { apiKey := "demo-key", userId := "u1", roomId := "room_001" }
     joinDemoState joinDemoRoom ["u1", "u2"]
     (by decide) (by decide) (by decide) (by decide)).2⟩

/-- Claim C7: `sdk:room:create` never fails because of the requested
`maxUsers`: with the other fields valid it succeeds for every requested
value, and the stored capacity is `max 2 (min 10 (requested ?? 2))`; in
particular a request of 1 is stored as 2 and a request of 99 as 10. -/
theorem claim_C7_max_users_clamped (keys : List String) (today : CalDate)
    (nowMs : Nat) (freshId : String) (p : CreateRoomPayload) (s : ServerState)
    (d : CalDate)
    (hkey : keys.contains p.apiKey = true)
    (huser : (alGet s.users p.userId).isSome = true)
    (hname1 : jsTrim p.roomName ≠ [])
    (hname2 : (jsTrim p.roomName).length ≤ 50)
    (hsd : p.startDate = .parsed d)
    (hd : dateOnOrAfter d today = true) :
    ∃ room, (roomCreate keys today nowMs freshId (some p) s).1 = .ok room ∧
      room.maxUsers = max 2 (min 10 (p.maxUsers.getD 2)) ∧
      (p.maxUsers = some 1 → room.maxUsers = 2) ∧
      (p.maxUsers = some 99 → room.maxUsers = 10) := by
  have hmem : p.apiKey ∈ keys := by
    simpa using hkey
  have huser2 : (alGet s.users p.userId).isNone = false := by
    rcases Option.isSome_iff_exists.mp huser with ⟨u, hu⟩
    simp [hu]
  have hname2b : ¬ ((jsTrim p.roomName).length > 50) := by omega
  refine ⟨{ id := freshId, name := jsTrim p.roomName, startDate := d,
            maxUsers := max 2 (min 10 (p.maxUsers.getD 2)), createdAt := nowMs,
            createdByUserId := p.userId }, ?_, rfl, ?_, ?_⟩
  · simp [roomCreate, hmem, huser2, hname1, hname2b, hsd, hd]
  · intro h1
    rw [h1]
    show (max 2 (min 10 ((some (1 : Int)).getD 2)) : Int) = 2
    decide
  · intro h99
    rw [h99]
    show (max 2 (min 10 ((some (99 : Int)).getD 2)) : Int) = 10
    decide

/-- Witness for claim C7: a concrete creation request with `maxUsers = 1`
stores capacity 2. -/
theorem claim_C7_max_users_clamped_witness :
    (∃ room,
      (roomCreate ["demo-key"] ⟨2026, 9, 11⟩ 0 "room_x"
        (some { apiKey := "demo-key", userId := "u1",
                roomName := "Test Room".toList,
                startDate := .parsed ⟨2026, 9, 11⟩, maxUsers := some 1 })
        { users := [("u1", { id := "u1", name := [], email := [], dob := .invalid,
                             gender := .Male, createdAt := 0 })],
          rooms := [], roomMembers := [], messagesByRoom := [] }).1 = .ok room ∧
      room.maxUsers = max 2 (min 10 ((some (1 : Int)).getD 2)) ∧
      (some (1 : Int) = some 1 → room.maxUsers = 2) ∧
      (some (1 : Int) = some 99 → room.maxUsers = 10)) :=
  claim_C7_max_users_clamped ["demo-key"] ⟨2026, 9, 11⟩ 0 "room_x"
    { apiKey := "demo-key", userId := "u1", roomName := "Test Room".toList,
      startDate := .parsed ⟨2026, 9, 11⟩, maxUsers := some 1 }
    { users := [("u1", { id := "u1", name := [], email := [], dob := .invalid,
                         gender := .Male, createdAt := 0 })],
      rooms := [], roomMembers := [], messagesByRoom := [] }
    ⟨2026, 9, 11⟩ (by decide) (by decide) (by decide) (by decide) (by decide)
    (by decide)

theorem isAtLeast18_false_of_birthday_tomorrow {today dob : CalDate}
    (hvt : ValidDate today) (hvd : ValidDate dob)
    (heq : nextDay today = ⟨dob.year + 18, dob.month, dob.day⟩) :
    isAtLeast18 today (.parsed dob) = false := by
  have h18 : isAtLeast18 today (.parsed dob) =
      (if today.year - dob.year > 18 then true
       else if today.year - dob.year < 18 then false
       else if today.month - dob.month > 0 then true
       else if today.month - dob.month < 0 then false
       else decide (today.day ≥ dob.day)) := rfl
  rw [h18]
  unfold nextDay at heq
  split_ifs at heq with h1 h2
  all_goals simp only [CalDate.mk.injEq] at heq
  all_goals obtain ⟨e1, e2, e3⟩ := heq
  all_goals split_ifs <;> simp_all <;> omega

/-- Claim C8: the adult check is computed by calendar year/month/day
difference: a birth date exactly 18 years before today (same month and
day) passes, while a birth date whose 18th birthday falls tomorrow fails
the check, and `sdk:user:create` then reports `INVALID_DOB`. -/
theorem claim_C8_age_boundary :
    (∀ today : CalDate,
      isAtLeast18 today (.parsed ⟨today.year - 18, today.month, today.day⟩) = true) ∧
    (∀ today dob : CalDate, ValidDate today → ValidDate dob →
      nextDay today = ⟨dob.year + 18, dob.month, dob.day⟩ →
      isAtLeast18 today (.parsed dob) = false) ∧
    (∀ (keys : List String) (today : CalDate) (nowMs : Nat) (freshId : String)
       (p : CreateUserPayload) (s : ServerState) (dob : CalDate),
       ValidDate today → ValidDate dob →
       nextDay today = ⟨dob.year + 18, dob.month, dob.day⟩ →
       keys.contains p.apiKey = true → p.agreedToTerms = true →
       p.name ≠ [] → p.name.length ≤ 30 → p.name.all isNameChar = true →
       p.email ≠ [] → validEmail p.email = true → p.dob = .parsed dob →
       (userCreate keys today nowMs freshId (some p) s).1 =
         .err .INVALID_DOB "Must be at least 18") := by
  refine ⟨?_, ?_, ?_⟩
  · intro today
    have h18 : isAtLeast18 today
        (.parsed ⟨today.year - 18, today.month, today.day⟩) =
        (if today.year - (today.year - 18) > 18 then true
         else if today.year - (today.year - 18) < 18 then false
         else if today.month - today.month > 0 then true
         else if today.month - today.month < 0 then false
         else decide (today.day ≥ today.day)) := rfl
    rw [h18]
    split_ifs <;> simp_all <;> omega
  · intro today dob hvt hvd heq
    exact isAtLeast18_false_of_birthday_tomorrow hvt hvd heq
  · intro keys today nowMs freshId p s dob hvt hvd heq hkey hterms hname0
      hname30 hnc hemail0 hemail hdob
    have hmem : p.apiKey ∈ keys := by
      simpa using hkey
    have hfalse : isAtLeast18 today p.dob = false := by
      rw [hdob]
      exact isAtLeast18_false_of_birthday_tomorrow hvt hvd heq
    have hnameE : p.name.isEmpty = false := by
      simp [hname0]
    have hname30b : ¬ (p.name.length > 30) := by omega
    have hemailE : p.email.isEmpty = false := by
      simp [hemail0]
    have hdobne : p.dob ≠ DateInput.empty := by
      rw [hdob]
      intro hcon
      exact DateInput.noConfusion hcon
    simp [userCreate, hmem, hterms, hnameE, hname30b, hnc, hemailE, hemail,
      hfalse, hdobne]

/-- Witness for claim C8: today 2026-10-11 (month index 9), birth date
2008-10-12 — the 18th birthday is tomorrow, so the check fails. -/
theorem claim_C8_age_boundary_witness :
    ValidDate ⟨2026, 9, 11⟩ ∧ ValidDate ⟨2008, 9, 12⟩ ∧
    nextDay ⟨2026, 9, 11⟩ = ⟨2008 + 18, 9, 12⟩ ∧
    isAtLeast18 ⟨2026, 9, 11⟩ (.parsed ⟨2008, 9, 12⟩) = false :=
  ⟨by decide, by decide, by decide,
   claim_C8_age_boundary.2.1 ⟨2026, 9, 11⟩ ⟨2008, 9, 12⟩ (by decide) (by decide)
     (by decide)⟩

/-- Claim C9: a successful `sdk:room:join` returns the last
`min n 50` messages of the room's log in log order (a suffix of the
log), and `N` sequential successful `sdk:message:send` calls to the same
room extend that room's log by exactly the `N` created messages in send
order. -/
theorem claim_C9_history_and_order :
    (∀ (keys : List String) (p : JoinRoomPayload) (s : ServerState)
       (room : Room) (recent : List Message),
       (roomJoin keys (some p) s).1 = .ok (room, recent) →
       recent = sliceLast 50 ((alGet s.messagesByRoom room.id).getD []) ∧
       (∃ pre, (alGet s.messagesByRoom room.id).getD [] = pre ++ recent) ∧
       recent.length = min ((alGet s.messagesByRoom room.id).getD []).length 50) ∧
    (∀ (keys : List String) (nowMs : Nat)
       (sends : List (SendMessagePayload × String)) (s : ServerState) (rid : String),
       WellKeyedRooms s →
       (∀ ps ∈ sends, ps.1.roomId = rid) →
       (runSends keys nowMs sends s).2.length = sends.length →
       (alGet (runSends keys nowMs sends s).1.messagesByRoom rid).getD [] =
         (alGet s.messagesByRoom rid).getD [] ++ (runSends keys nowMs sends s).2) := by
  constructor
  · intro keys p s room recent h
    unfold roomJoin at h
    dsimp only at h
    split at h
    · simp at h
    · split at h
      · simp at h
      · split at h
        · simp at h
        · rename_i room2 hroom2
          split at h
          · simp at h
          · simp only [Prod.mk.injEq, Res.ok.injEq] at h
            obtain ⟨hr, hrec⟩ := h
            subst hr
            subst hrec
            exact ⟨rfl, sliceLast_suffix 50 _, sliceLast_length 50 _⟩
  · intro keys nowMs sends s rid hwk hroom hall
    exact runSends_log keys nowMs sends s rid hwk hroom hall

/-- Witness for claim C9: a member re-joining `room_001` in the concrete
demo state receives the (empty) log suffix. -/
theorem claim_C9_history_and_order_witness :
    (roomJoin ["demo-key"]
      (some { apiKey := "demo-key", userId := "u1", roomId := "room_001" })
      joinDemoState).1 = .ok (joinDemoRoom, ([] : List Message)) ∧
    (([] : List Message) =
      sliceLast 50 ((alGet joinDemoState.messagesByRoom joinDemoRoom.id).getD []) ∧
     (∃ pre, (alGet joinDemoState.messagesByRoom joinDemoRoom.id).getD [] =
        pre ++ ([] : List Message)) ∧
     ([] : List Message).length =
       min ((alGet joinDemoState.messagesByRoom joinDemoRoom.id).getD []).length 50) :=
  ⟨by decide,
   claim_C9_history_and_order.1 ["demo-key"]
     { apiKey := "demo-key", userId := "u1", roomId := "room_001" }
     joinDemoState joinDemoRoom [] (by decide)⟩

/-- Claim C10: `sdk:user:create` accepts a display name made only of
whitespace characters (length 1 to 30) — it passes the `[A-Za-z\s]+`
regex — and the stored user's name is empty because the name is trimmed
only after validation. -/
theorem claim_C10_whitespace_name (keys : List String) (today : CalDate)
    (nowMs : Nat) (freshId : String) (p : CreateUserPayload) (s : ServerState)
    (hkey : keys.contains p.apiKey = true)
    (hterms : p.agreedToTerms = true)
    (hname0 : p.name ≠ [])
    (hname30 : p.name.length ≤ 30)
    (hspace : p.name.all isJsSpace = true)
    (hemail0 : p.email ≠ [])
    (hemail : validEmail p.email = true)
    (hdob : isAtLeast18 today p.dob = true) :
    ∃ u, (userCreate keys today nowMs freshId (some p) s).1 = .ok u ∧
      u.name = [] := by
  have hmem : p.apiKey ∈ keys := by
    simpa using hkey
  have hdobne : p.dob ≠ DateInput.empty := by
    intro hcon
    rw [hcon] at hdob
    simp [isAtLeast18] at hdob
  have hnc : p.name.all isNameChar = true := by
    rw [List.all_eq_true] at hspace ⊢
    intro c hc
    have hcs := hspace c hc
    simp only [isNameChar, hcs, Bool.or_true]
  have hnameE : p.name.isEmpty = false := by
    simp [hname0]
  have hname30b : ¬ (p.name.length > 30) := by omega
  have hemailE : p.email.isEmpty = false := by
    simp [hemail0]
  refine ⟨{ id := freshId, name := jsTrim p.name,
            email := (jsTrim p.email).map Char.toLower, dob := p.dob,
            gender := p.gender.getD .Male, createdAt := nowMs }, ?_, ?_⟩
  · simp [userCreate, hmem, hterms, hnameE, hname30b, hnc, hemailE, hemail,
      hdob, hdobne]
  · show jsTrim p.name = []
    exact jsTrim_eq_nil_of_all_space hspace

/-- Witness for claim C10: a single-space name with otherwise valid
fields is accepted and stored as the empty name. -/
theorem claim_C10_whitespace_name_witness :
    (["demo-key"] : List String).contains "demo-key" = true ∧
    (([' '] : List Char) ≠ []) ∧
    (([' '] : List Char).length ≤ 30) ∧
    (([' '] : List Char).all isJsSpace = true) ∧
    ("a@b.c".toList ≠ ([] : List Char)) ∧
    validEmail "a@b.c".toList = true ∧
    isAtLeast18 ⟨2026, 9, 11⟩ (.parsed ⟨2000, 0, 1⟩) = true ∧
    (∃ u, (userCreate ["demo-key"] ⟨2026, 9, 11⟩ 0 "u_1"
        (some { apiKey := "demo-key", name := [' '], email := "a@b.c".toList,
                dob := .parsed ⟨2000, 0, 1⟩, gender := none,
                agreedToTerms := true })
        (seedState ⟨2026, 9, 11⟩ 0)).1 = .ok u ∧ u.name = []) :=
  ⟨by decide, by decide, by decide, by decide, by decide, by decide, by decide,
   claim_C10_whitespace_name ["demo-key"] ⟨2026, 9, 11⟩ 0 "u_1"
     { apiKey := "demo-key", name := [' '], email := "a@b.c".toList,
       dob := .parsed ⟨2000, 0, 1⟩, gender := none, agreedToTerms := true }
     (seedState ⟨2026, 9, 11⟩ 0)
     (by decide) (by decide) (by decide) (by decide) (by decide) (by decide)
     (by decide) (by decide)⟩

end MockServer
